import Mathlib

/-!
# Verification of the go-mod-secrets secret-store client contract

The repository ships a single contract file, `src/secrets/interfaces.go`,
declaring two Go interfaces: `SecretClient` (application-facing secret
retrieval/storage and derived-token operations) and `SecretStoreClient`
(privileged backend administration: init/unseal lifecycle, engines, tokens,
identities).  No implementation lives in the repository, so the behavioural
model below is built from the specification's contract language; the
interface *shape* (which operation takes which parameters) is embedded
directly from the Go source.
-/

namespace GoModSecrets

/-- Error taxonomy of the client contract (spec section 7): `NotFound`
(path/key/mount/identity absent), `Unauthorized` (token lacks required policy
or credentials invalid), `Invalid` (malformed input), `Conflict` (target
exists with divergent config), `PreconditionFailed` (administrative ordering
dependency violated or wrong lifecycle state), `AlreadyInitialized`,
`Unsupported` (operation not valid for current token type), `Unreachable`
(transport/backend failure). -/
inductive SecretsError where
  | NotFound
  | Unauthorized
  | Invalid
  | Conflict
  | PreconditionFailed
  | AlreadyInitialized
  | Unsupported
  | Unreachable
  deriving DecidableEq, Repr

/-- Token kinds carried alongside the opaque token value (spec section 9:
"model them as a tagged variant (TokenKind: Plain | Identity | Root)"). -/
inductive TokenKind where
  | Plain
  | Identity
  | Root
  deriving DecidableEq, Repr

/-! ## Association-list primitives

Secret sets (`map[string]string` in Go) and the per-path key/value store are
modelled as association lists over `String` keys. -/

/-- Look up the first binding of key `k`. -/
def alookup {β : Type} (m : List (String × β)) (k : String) : Option β :=
  match m with
  | [] => none
  | (k', v) :: rest => if k' = k then some v else alookup rest k

/-- Insert-or-update a single binding: overwrite the existing binding of `k`
in place, or append a fresh binding when `k` is absent. -/
def aupsert {β : Type} (m : List (String × β)) (k : String) (v : β) :
    List (String × β) :=
  match m with
  | [] => [(k, v)]
  | (k', v') :: rest =>
      if k' = k then (k, v) :: rest else (k', v') :: aupsert rest k v

/-- Upsert every binding of `s` into `m`, left to right. -/
def aupsertAll {β : Type} (m s : List (String × β)) : List (String × β) :=
  s.foldl (fun acc p => aupsert acc p.1 p.2) m

/-- `orFallback o f` is `o` when `o` carries a value and `f` otherwise. -/
def orFallback {β : Type} (o f : Option β) : Option β :=
  match o with
  | some w => some w
  | none => f

@[simp] theorem orFallback_some {β : Type} (w : β) (f : Option β) :
    orFallback (some w) f = some w := rfl

@[simp] theorem orFallback_none {β : Type} (f : Option β) :
    orFallback none f = f := rfl

/-- The value of the *last* binding of `k` in `s` (a Go map literal has
unique keys, so for inputs coming from Go maps this is simply the binding
of `k`). -/
def lastLookup {β : Type} (s : List (String × β)) (k : String) : Option β :=
  match s with
  | [] => none
  | (k', v) :: rest =>
      orFallback (lastLookup rest k) (if k' = k then some v else none)

@[simp] theorem alookup_nil {β : Type} (k : String) :
    alookup ([] : List (String × β)) k = none := rfl

theorem alookup_cons {β : Type} (k' : String) (v : β) (rest : List (String × β))
    (k : String) :
    alookup ((k', v) :: rest) k = if k' = k then some v else alookup rest k := rfl

/-- Lookup after a single upsert: the upserted key reads back the new value,
every other key is untouched. -/
theorem alookup_aupsert {β : Type} (m : List (String × β)) (k : String) (v : β)
    (k' : String) :
    alookup (aupsert m k v) k' = if k = k' then some v else alookup m k' := by
  induction m with
  | nil =>
      simp [aupsert, alookup_cons]
  | cons p rest ih =>
      obtain ⟨k₀, v₀⟩ := p
      by_cases h : k₀ = k
      · subst h
        by_cases h' : k₀ = k' <;> simp [aupsert, alookup_cons, h']
      · by_cases h' : k₀ = k'
        · subst h'
          simp [aupsert, alookup_cons, h, ih]
          rw [if_neg (fun hk => h hk.symm)]
        · simp [aupsert, alookup_cons, h, h', ih]

theorem lastLookup_cons {β : Type} (k₀ : String) (v₀ : β)
    (rest : List (String × β)) (k : String) :
    lastLookup ((k₀, v₀) :: rest) k =
      orFallback (lastLookup rest k) (if k₀ = k then some v₀ else none) := by
  rw [lastLookup]

/-- Lookup after upserting a whole secret set: the last binding in `s` wins,
and keys not bound in `s` fall through to `m`. -/
theorem alookup_aupsertAll {β : Type} (s m : List (String × β)) (k : String) :
    alookup (aupsertAll m s) k = orFallback (lastLookup s k) (alookup m k) := by
  induction s generalizing m with
  | nil => simp [aupsertAll, lastLookup]
  | cons p rest ih =>
      obtain ⟨k₀, v₀⟩ := p
      have hstep : aupsertAll m ((k₀, v₀) :: rest) = aupsertAll (aupsert m k₀ v₀) rest := rfl
      rw [hstep, ih, lastLookup_cons]
      cases hrest : lastLookup rest k with
      | some w => simp
      | none =>
          by_cases h : k₀ = k <;>
            simp [alookup_aupsert, h]

/-! ## Backend and client state -/

/-- A token record held by the backend: the secret bearer value, its
non-secret accessor handle, and the attached policies (spec section 3,
`TokenMetadata` / accessor indirection). -/
structure TokenRecord where
  value : String
  accessor : String
  policies : List String
  deriving DecidableEq, Repr

/-- Introspection record returned by token lookups: policies attached and
the accessor id (spec section 3, `TokenMetadata`). -/
structure TokenMetadata where
  policies : List String
  accessor : String
  deriving DecidableEq, Repr

/-- A named Consul ACL role bound to backend policies (spec section 3,
`ConsulRole`; the Go type `types.ConsulRole` is external to the
repository). -/
structure ConsulRole where
  name : String
  policies : List String
  deriving DecidableEq, Repr

/-- Result of one-time backend initialization: unseal key shares (count =
`secretShares`) and a root token (spec section 3, `InitResponse`). -/
structure InitResponse where
  keysBase64 : List String
  rootToken : String
  deriving DecidableEq, Repr

/-- Modelled from the spec: the repository contains only the interface
declarations (`src/secrets/interfaces.go`); the Vault-like backend the
client contract talks to is modelled as explicit state.  Fields follow the
spec's data model and lifecycle: seal/unseal share accumulation (section
4.2), the per-path key/value store (section 3 `SecretSet`), enabled secret
engines and auth methods, Consul access configuration, identities and
identity keys/roles, issued tokens, and counters that make freshly issued
artifacts unique. -/
structure Backend where
  reachable : Bool
  initialized : Bool
  secretThreshold : Nat
  secretShares : Nat
  unsealKeys : List String
  suppliedShares : List String
  rootToken : String
  kv : List (String × List (String × String))
  kvEngines : List (String × String)
  consulEngines : List (String × String)
  consulConfigured : Bool
  consulRoles : List (String × List String)
  authHandles : List String
  passwordAuthMounts : List String
  identities : List String
  identityCfgs : List (String × (List (String × String) × List String))
  identityKeys : List (String × String)
  identityRoles : List (String × (String × String × String))
  users : List (String × List (String × (String × String × List String)))
  userBindings : List (String × String × String)
  tokens : List TokenRecord
  tokenCounter : Nat
  consulTokenCounter : Nat
  deriving DecidableEq, Repr

/-- The backend is sealed while the accumulated distinct valid shares are
below `secretThreshold` (spec section 4.2, `Unseal`). -/
def Backend.sealedB (bk : Backend) : Bool :=
  decide (bk.suppliedShares.length < bk.secretThreshold)

/-- The backend is ready for administrative operations once initialized and
unsealed (spec section 4.2 lifecycle `Uninitialized → Initialized+Sealed →
Unsealed → Ready`). -/
def Backend.ready (bk : Backend) : Bool :=
  bk.initialized && decide (bk.secretThreshold ≤ bk.suppliedShares.length)

/-- Modelled from the spec: the `SecretClient` implementation is absent from
the repository.  Per spec section 3 (`AuthToken`) the client owns exactly
one auth token at a time, with a kind tag (section 9) and the policies the
token carries, here reduced to the capability flags the contract mentions
(read/write policy on secret paths, Consul-token generation permission). -/
structure SecretClientState where
  authToken : String
  tokenKind : TokenKind
  canRead : Bool
  canWrite : Bool
  canGenerateConsulToken : Bool
  deriving DecidableEq, Repr

/-! ## SecretClient operations (modelled from the spec) -/

/-- Select the requested keys out of a secret set; `none` when any requested
key is absent. -/
def selectKeys (m : List (String × String)) (keys : List String) :
    Option (List (String × String)) :=
  match keys with
  | [] => some []
  | k :: rest =>
      match alookup m k, selectKeys m rest with
      | some v, some s => some ((k, v) :: s)
      | _, _ => none

/-- Modelled from the spec: `SecretClient.GetSecrets` has no implementation
in the repository.  Resolves `subPath`; with no keys requested returns every
key at that path; fails `NotFound` if the path has no secrets (or a
requested key is absent), `Unauthorized` without read policy, `Unreachable`
on transport failure (spec section 4.1). -/
def GetSecrets (st : SecretClientState) (bk : Backend) (subPath : String)
    (keys : List String) : Except SecretsError (List (String × String)) :=
  if bk.reachable = false then .error .Unreachable
  else if st.canRead = false then .error .Unauthorized
  else
    match alookup bk.kv subPath with
    | none => .error .NotFound
    | some m =>
        if keys.isEmpty then .ok m
        else
          match selectKeys m keys with
          | some sel => .ok sel
          | none => .error .NotFound

/-- Modelled from the spec: `SecretClient.StoreSecrets` has no
implementation in the repository.  Upsert semantics: existing keys
overwritten, new keys added, unspecified keys untouched; fails
`Unauthorized` without write policy, `Invalid` if `secrets` is empty or
contains empty keys (spec sections 3 and 4.1). -/
def StoreSecrets (st : SecretClientState) (bk : Backend) (subPath : String)
    (secrets : List (String × String)) : Except SecretsError Backend :=
  if bk.reachable = false then .error .Unreachable
  else if st.canWrite = false then .error .Unauthorized
  else if secrets.isEmpty || secrets.any (fun p => p.1 = "") then .error .Invalid
  else
    .ok { bk with
          kv := aupsert bk.kv subPath
                  (aupsertAll ((alookup bk.kv subPath).getD []) secrets) }

/-- Modelled from the spec: `SecretClient.GetKeys` has no implementation in
the repository.  Returns key identifiers only, no values (spec section
4.1). -/
def GetKeys (st : SecretClientState) (bk : Backend) (subPath : String) :
    Except SecretsError (List String) :=
  if bk.reachable = false then .error .Unreachable
  else if st.canRead = false then .error .Unauthorized
  else
    match alookup bk.kv subPath with
    | none => .error .NotFound
    | some m => .ok (m.map Prod.fst)

/-- The `n`-th Consul token issued by the backend; distinct counters give
distinct (different-length) token strings. -/
def consulTokenName (n : Nat) : String :=
  String.mk (List.replicate (n + 1) 'c')

/-- Modelled from the spec: `SecretClient.GenerateConsulToken` has no
implementation in the repository.  Requires the held auth token to carry
Consul-token-generation permission (`Unauthorized` otherwise) and always
issues a fresh token, never a cached value (spec section 4.1); freshness is
modelled by the backend's issuance counter. -/
def GenerateConsulToken (st : SecretClientState) (bk : Backend)
    (serviceKey : String) : Except SecretsError (String × Backend) :=
  if bk.reachable = false then .error .Unreachable
  else if st.canGenerateConsulToken = false then .error .Unauthorized
  else
    .ok (consulTokenName bk.consulTokenCounter,
         { bk with consulTokenCounter := bk.consulTokenCounter + 1 })

/-- Modelled from the spec: `SecretClient.SetAuthToken` has no
implementation in the repository.  Replaces the client's single held auth
token with the new value (spec sections 3 and 4.1). -/
def SetAuthToken (st : SecretClientState) (token : String) :
    Except SecretsError SecretClientState :=
  .ok { st with authToken := token }

/-- The opaque JWT encoding used by the model: a tag followed by the token
the JWT asserts.  The wire encoding is out of scope for the spec (section
1), so any injective encoding with a recognizable shape is faithful. -/
def encodeJWT (tok : String) : String :=
  String.mk ('j' :: 'w' :: 't' :: tok.data)

/-- Decode a JWT string produced by `encodeJWT`; `none` on any string that
is not syntactically a JWT of the model's shape. -/
def decodeJWT (s : String) : Option String :=
  match s.data with
  | 'j' :: 'w' :: 't' :: rest => some (String.mk rest)
  | _ => none

/-- Modelled from the spec: `SecretClient.GetSelfJWT` has no implementation
in the repository.  Returns an encoded JWT for the current identity-based
token; fails `Unsupported` when the current token type does not support JWT
issuance (spec section 4.1). -/
def GetSelfJWT (st : SecretClientState) (bk : Backend) (serviceKey : String) :
    Except SecretsError String :=
  if bk.reachable = false then .error .Unreachable
  else if st.tokenKind ≠ TokenKind.Identity then .error .Unsupported
  else .ok (encodeJWT st.authToken)

/-- Modelled from the spec: `SecretClient.IsJWTValid` has no implementation
in the repository.  Pure validation, no mutation (the unchanged states are
returned to make that checkable); errors only when validation itself cannot
be performed (backend unreachable); an evaluable JWT yields `true` exactly
when it decodes to the client's current token, and `false` otherwise —
including every syntactically invalid string (spec section 4.1). -/
def IsJWTValid (st : SecretClientState) (bk : Backend) (jwt : String) :
    Except SecretsError (Bool × SecretClientState × Backend) :=
  if bk.reachable = false then .error .Unreachable
  else
    match decodeJWT jwt with
    | none => .ok (false, st, bk)
    | some tok => .ok (tok == st.authToken, st, bk)

/-- Apply a sequence of `StoreSecrets` calls on one path, stopping at the
first failure. -/
def applyStoreCalls (st : SecretClientState) (bk : Backend) (subPath : String)
    (stores : List (List (String × String))) : Except SecretsError Backend :=
  match stores with
  | [] => .ok bk
  | s :: rest =>
      match StoreSecrets st bk subPath s with
      | .ok bk1 => applyStoreCalls st bk1 subPath rest
      | .error e => .error e

/-- The most recently stored value for key `k` across a sequence of store
calls: the binding of `k` in the latest call that mentions `k` (spec's
"most recently stored value"; later calls take precedence). -/
def lastStored {β : Type} (stores : List (List (String × β))) (k : String) :
    Option β :=
  match stores with
  | [] => none
  | s :: rest => orFallback (lastStored rest k) (lastLookup s k)

/-! ## SecretStoreClient operations (modelled from the spec) -/

/-- The `i`-th unseal key share handed out by `Init`. -/
def shareName (i : Nat) : String :=
  String.mk (List.replicate (i + 1) 's')

/-- Modelled from the spec: `SecretStoreClient.Init` has no implementation
in the repository.  Valid only from `Uninitialized`, failing
`AlreadyInitialized` otherwise; requires `0 < secretThreshold ≤
secretShares` (both arguments positive), else `Invalid`; on success returns
`secretShares` unseal key shares and a root token (spec section 4.2).  The
Go parameters are `int`, so they are taken as integers here. -/
def Init (bk : Backend) (secretThreshold secretShares : Int) :
    Except SecretsError (InitResponse × Backend) :=
  if bk.initialized then .error .AlreadyInitialized
  else if ¬(0 < secretThreshold ∧ secretThreshold ≤ secretShares) then
    .error .Invalid
  else
    let keys := (List.range secretShares.toNat).map shareName
    .ok ({ keysBase64 := keys, rootToken := "root" },
         { bk with
           initialized := true
           secretThreshold := secretThreshold.toNat
           secretShares := secretShares.toNat
           unsealKeys := keys
           suppliedShares := []
           rootToken := "root" })

/-- Modelled from the spec: `SecretStoreClient.Unseal` has no implementation
in the repository.  Valid from `Initialized+Sealed` (wrong lifecycle state
fails); every submitted share must be a valid key share not supplied before
and not repeated within the call, else `Invalid`; valid fresh shares
accumulate across calls, and the backend is unsealed once the accumulated
distinct valid shares reach `secretThreshold` (spec section 4.2). -/
def Unseal (bk : Backend) (keysBase64 : List String) :
    Except SecretsError Backend :=
  if bk.initialized = false then .error .PreconditionFailed
  else if bk.secretThreshold ≤ bk.suppliedShares.length then
    .error .PreconditionFailed
  else if ¬(∀ k ∈ keysBase64, k ∈ bk.unsealKeys) then .error .Invalid
  else if ¬(keysBase64 ++ bk.suppliedShares).Nodup then .error .Invalid
  else .ok { bk with suppliedShares := bk.suppliedShares ++ keysBase64 }

/-- Apply a sequence of `Unseal` calls, stopping at the first failure. -/
def applyUnseals (bk : Backend) (calls : List (List String)) :
    Except SecretsError Backend :=
  match calls with
  | [] => .ok bk
  | c :: rest =>
      match Unseal bk c with
      | .ok bk1 => applyUnseals bk1 rest
      | .error e => .error e

/-- Administrative operations require a reachable backend in the `Ready`
lifecycle stage (spec section 4.2: engine/policy/identity/token management
is "valid only once Ready"). -/
def adminGuard (bk : Backend) : Option SecretsError :=
  if bk.reachable = false then some .Unreachable
  else if bk.ready = false then some .PreconditionFailed
  else none

/-- Modelled from the spec: `SecretStoreClient.EnableKVSecretEngine` has no
implementation in the repository.  Enabling an already-enabled mount with
the same `kvVersion` is a no-op success; a mount enabled with a different
`kvVersion` fails `Conflict` (spec sections 4.2 and 8).  The authenticating
`token` parameter is kept for shape; the spec assigns no per-token policy
semantics to administrative calls. -/
def EnableKVSecretEngine (bk : Backend) (token mountPoint kvVersion : String) :
    Except SecretsError Backend :=
  match adminGuard bk with
  | some e => .error e
  | none =>
      match alookup bk.kvEngines mountPoint with
      | some v => if v = kvVersion then .ok bk else .error .Conflict
      | none =>
          .ok { bk with kvEngines := aupsert bk.kvEngines mountPoint kvVersion }

/-- Modelled from the spec: `SecretStoreClient.EnableConsulSecretEngine` has
no implementation in the repository.  Same enable policy as the KV engine,
with `defaultLeaseTTL` as the mount's configuration (spec section 4.2). -/
def EnableConsulSecretEngine (bk : Backend)
    (token mountPoint defaultLeaseTTL : String) : Except SecretsError Backend :=
  match adminGuard bk with
  | some e => .error e
  | none =>
      match alookup bk.consulEngines mountPoint with
      | some v => if v = defaultLeaseTTL then .ok bk else .error .Conflict
      | none =>
          .ok { bk with
                consulEngines := aupsert bk.consulEngines mountPoint defaultLeaseTTL }

/-- Modelled from the spec: `SecretStoreClient.EnablePasswordAuth` has no
implementation in the repository.  Enables username/password auth at a
mount point; the operation carries no further configuration, so enabling an
already-enabled mount is a no-op success (spec section 4.2 enable
policy). -/
def EnablePasswordAuth (bk : Backend) (token mountPoint : String) :
    Except SecretsError Backend :=
  match adminGuard bk with
  | some e => .error e
  | none =>
      if bk.passwordAuthMounts.contains mountPoint then .ok bk
      else .ok { bk with passwordAuthMounts := mountPoint :: bk.passwordAuthMounts }

/-- Modelled from the spec: `SecretStoreClient.CreateRole` has no
implementation in the repository.  Creating a Consul role that already
exists with the same policies is a no-op success; an existing role with
different policies fails `Conflict` (spec section 4.2 enable/create
policy). -/
def CreateRole (bk : Backend) (secretStoreToken : String)
    (consulRole : ConsulRole) : Except SecretsError Backend :=
  match adminGuard bk with
  | some e => .error e
  | none =>
      match alookup bk.consulRoles consulRole.name with
      | some cfg =>
          if cfg = consulRole.policies then .ok bk else .error .Conflict
      | none =>
          .ok { bk with
                consulRoles :=
                  aupsert bk.consulRoles consulRole.name consulRole.policies }

/-- Modelled from the spec: `SecretStoreClient.CreateNamedIdentityKey` has
no implementation in the repository.  Creating a named identity signing key
that already exists with the same algorithm is a no-op success; an existing
key with a different algorithm fails `Conflict` (spec sections 3 and 4.2
enable/create policy). -/
def CreateNamedIdentityKey (bk : Backend) (token keyName algorithm : String) :
    Except SecretsError Backend :=
  match adminGuard bk with
  | some e => .error e
  | none =>
      match alookup bk.identityKeys keyName with
      | some alg0 => if alg0 = algorithm then .ok bk else .error .Conflict
      | none =>
          .ok { bk with identityKeys := aupsert bk.identityKeys keyName algorithm }

/-- Modelled from the spec: `SecretStoreClient.CreateOrUpdateIdentity` has
no implementation in the repository.  Creates a named principal with
metadata and attached policies and returns its id (modelled as the name);
an already-correct identity is a no-op success, an identity existing with
different configuration fails `Conflict` (spec sections 3 and 4.2
enable/create policy). -/
def CreateOrUpdateIdentity (bk : Backend) (token name : String)
    (metadata : List (String × String)) (policies : List String) :
    Except SecretsError (String × Backend) :=
  match adminGuard bk with
  | some e => .error e
  | none =>
      match alookup bk.identityCfgs name with
      | some cfg =>
          if cfg = (metadata, policies) then .ok (name, bk) else .error .Conflict
      | none =>
          .ok (name,
               { bk with
                 identityCfgs := aupsert bk.identityCfgs name (metadata, policies)
                 identities := name :: bk.identities })

/-- The credential configuration stored for `username` at auth mount
`mountPoint`, if any. -/
def userLookup (bk : Backend) (mountPoint username : String) :
    Option (String × String × List String) :=
  alookup ((alookup bk.users mountPoint).getD []) username

/-- Modelled from the spec: `SecretStoreClient.CreateOrUpdateUser` has no
implementation in the repository.  Creates a username/password credential
bound to token policies and a TTL at an auth mount; an already-correct user
is a no-op success, a user existing with different configuration fails
`Conflict` (spec sections 3 and 4.2 enable/create policy). -/
def CreateOrUpdateUser (bk : Backend)
    (token mountPoint username password tokenTTL : String)
    (tokenPolicies : List String) : Except SecretsError Backend :=
  match adminGuard bk with
  | some e => .error e
  | none =>
      match userLookup bk mountPoint username with
      | some cfg =>
          if cfg = (password, tokenTTL, tokenPolicies) then .ok bk
          else .error .Conflict
      | none =>
          .ok { bk with
                users := aupsert bk.users mountPoint
                  (aupsert ((alookup bk.users mountPoint).getD []) username
                    (password, tokenTTL, tokenPolicies)) }

/-- Modelled from the spec: `SecretStoreClient.ConfigureConsulAccess` has no
implementation in the repository.  A Consul secret engine must be enabled
before it can be configured; violating the ordering yields
`PreconditionFailed`, not a generic backend error (spec section 4.2
ordering dependencies). -/
def ConfigureConsulAccess (bk : Backend)
    (secretStoreToken bootstrapACLToken consulHost : String) (consulPort : Int) :
    Except SecretsError Backend :=
  match adminGuard bk with
  | some e => .error e
  | none =>
      if bk.consulEngines.isEmpty then .error .PreconditionFailed
      else .ok { bk with consulConfigured := true }

/-- Modelled from the spec: `SecretStoreClient.CreateOrUpdateIdentityRole`
has no implementation in the repository.  An identity role must reference
an existing named identity key; a missing key yields `PreconditionFailed`
(spec sections 3 and 4.2).  An already-correct role is a no-op success and
a role existing with different configuration fails `Conflict` (spec
section 4.2 enable/create policy). -/
def CreateOrUpdateIdentityRole (bk : Backend)
    (token roleName keyName template jwtTTL : String) :
    Except SecretsError Backend :=
  match adminGuard bk with
  | some e => .error e
  | none =>
      if (alookup bk.identityKeys keyName).isNone then .error .PreconditionFailed
      else
        match alookup bk.identityRoles roleName with
        | some cfg =>
            if cfg = (keyName, template, jwtTTL) then .ok bk
            else .error .Conflict
        | none =>
            .ok { bk with
                  identityRoles :=
                    aupsert bk.identityRoles roleName (keyName, template, jwtTTL) }

/-- Modelled from the spec: `SecretStoreClient.BindUserToIdentity` has no
implementation in the repository.  Binding requires both that the auth
method is enabled (its handle exists) and that the identity exists; either
missing yields `PreconditionFailed` (spec section 4.2 ordering
dependencies). -/
def BindUserToIdentity (bk : Backend)
    (token identityId authHandle username : String) :
    Except SecretsError Backend :=
  match adminGuard bk with
  | some e => .error e
  | none =>
      if (bk.authHandles.contains authHandle) = false then
        .error .PreconditionFailed
      else if (bk.identities.contains identityId) = false then
        .error .PreconditionFailed
      else .ok { bk with userBindings := (identityId, authHandle, username) :: bk.userBindings }

/-- The `n`-th token value minted by `CreateToken`. -/
def tokenValueName (n : Nat) : String :=
  String.mk (List.replicate (n + 1) 't')

/-- The `n`-th token accessor minted by `CreateToken`. -/
def accessorName (n : Nat) : String :=
  String.mk (List.replicate (n + 1) 'a')

/-- Modelled from the spec: `SecretStoreClient.CreateToken` has no
implementation in the repository.  Mints a fresh token with the requested
policies (the one recognized field of the free-form `parameters` map the
contract leaves opaque, spec section 9) and returns its secret value
together with its non-secret accessor (spec sections 3 and 4.2). -/
def CreateToken (bk : Backend) (token : String) (policies : List String) :
    Except SecretsError ((String × String) × Backend) :=
  match adminGuard bk with
  | some e => .error e
  | none =>
      .ok ((tokenValueName bk.tokenCounter, accessorName bk.tokenCounter),
           { bk with
             tokens := { value := tokenValueName bk.tokenCounter
                         accessor := accessorName bk.tokenCounter
                         policies := policies } :: bk.tokens
             tokenCounter := bk.tokenCounter + 1 })

/-- Modelled from the spec: `SecretStoreClient.LookupTokenAccessor` has no
implementation in the repository.  Introspects a token through its accessor
without exposing the bearer value; absent accessor is `NotFound` (spec
sections 3 and 4.2). -/
def LookupTokenAccessor (bk : Backend) (token accessor : String) :
    Except SecretsError TokenMetadata :=
  match adminGuard bk with
  | some e => .error e
  | none =>
      match bk.tokens.find? (fun r => r.accessor == accessor) with
      | some r => .ok { policies := r.policies, accessor := r.accessor }
      | none => .error .NotFound

/-- Modelled from the spec: `SecretStoreClient.RevokeTokenAccessor` has no
implementation in the repository.  Revokes the token referenced by the
accessor; absent accessor is `NotFound` (spec sections 3 and 4.2). -/
def RevokeTokenAccessor (bk : Backend) (token accessor : String) :
    Except SecretsError Backend :=
  match adminGuard bk with
  | some e => .error e
  | none =>
      match bk.tokens.find? (fun r => r.accessor == accessor) with
      | some _ =>
          .ok { bk with tokens := bk.tokens.filter (fun r => r.accessor ≠ accessor) }
      | none => .error .NotFound

/-- Modelled from the spec: `SecretStoreClient.LookupToken` has no
implementation in the repository.  Introspects a token by its bearer value;
a revoked or unknown token fails `NotFound` (of the spec's
`NotFound`/`Unauthorized` pair, spec section 8). -/
def LookupToken (bk : Backend) (token : String) :
    Except SecretsError TokenMetadata :=
  match adminGuard bk with
  | some e => .error e
  | none =>
      match bk.tokens.find? (fun r => r.value == token) with
      | some r => .ok { policies := r.policies, accessor := r.accessor }
      | none => .error .NotFound

/-- Well-formedness of the backend's token store: every issued value and
accessor came from an earlier counter state, so a freshly minted value or
accessor collides with no existing record. -/
def tokensWF (bk : Backend) : Prop :=
  ∀ r ∈ bk.tokens,
    r.value.length ≤ bk.tokenCounter ∧ r.accessor.length ≤ bk.tokenCounter

/-! ## Interface shape, embedded from `src/secrets/interfaces.go`

The `SecretStoreClient` interface (lines 64–94) declares 29 methods.  The
enumeration and the per-method fact of whether the method's parameter list
carries the caller's authenticating secret-store token (a leading `token` /
`secretStoreToken` parameter; for `LookupToken`/`RevokeToken` the token
operated on is itself the authenticating token) are transcribed directly
from the Go signatures. -/

/-- The 29 methods of the Go `SecretStoreClient` interface, in source
order. -/
inductive SecretStoreOp where
  | HealthCheck
  | Init
  | Unseal
  | InstallPolicy
  | CheckSecretEngineInstalled
  | EnableKVSecretEngine
  | EnableConsulSecretEngine
  | RegenRootToken
  | CreateToken
  | ListTokenAccessors
  | RevokeTokenAccessor
  | LookupTokenAccessor
  | LookupToken
  | RevokeToken
  | ConfigureConsulAccess
  | CreateRole
  | CreateOrUpdateIdentity
  | DeleteIdentity
  | LookupIdentity
  | CheckAuthMethodEnabled
  | EnablePasswordAuth
  | LookupAuthHandle
  | CreateOrUpdateUser
  | DeleteUser
  | BindUserToIdentity
  | InternalServiceLogin
  | CheckIdentityKeyExists
  | CreateNamedIdentityKey
  | CreateOrUpdateIdentityRole
  deriving DecidableEq, Fintype, Repr

/-- Whether the method's Go signature takes the authenticating secret-store
token as an explicit parameter (transcribed from
`src/secrets/interfaces.go` lines 65–93). -/
def takesAuthTokenParam : SecretStoreOp → Bool
  | .HealthCheck => false
  | .Init => false
  | .Unseal => false
  | .InstallPolicy => true
  | .CheckSecretEngineInstalled => true
  | .EnableKVSecretEngine => true
  | .EnableConsulSecretEngine => true
  | .RegenRootToken => false
  | .CreateToken => true
  | .ListTokenAccessors => true
  | .RevokeTokenAccessor => true
  | .LookupTokenAccessor => true
  | .LookupToken => true
  | .RevokeToken => true
  | .ConfigureConsulAccess => true
  | .CreateRole => true
  | .CreateOrUpdateIdentity => true
  | .DeleteIdentity => true
  | .LookupIdentity => true
  | .CheckAuthMethodEnabled => true
  | .EnablePasswordAuth => true
  | .LookupAuthHandle => true
  | .CreateOrUpdateUser => true
  | .DeleteUser => true
  | .BindUserToIdentity => true
  | .InternalServiceLogin => true
  | .CheckIdentityKeyExists => true
  | .CreateNamedIdentityKey => true
  | .CreateOrUpdateIdentityRole => true

/-! ## Sample states used to instantiate hypotheses -/

/-- A reachable, uninitialized backend with empty stores. -/
def baseBackend : Backend where
  reachable := true
  initialized := false
  secretThreshold := 0
  secretShares := 0
  unsealKeys := []
  suppliedShares := []
  rootToken := ""
  kv := []
  kvEngines := []
  consulEngines := []
  consulConfigured := false
  consulRoles := []
  authHandles := []
  passwordAuthMounts := []
  identities := []
  identityCfgs := []
  identityKeys := []
  identityRoles := []
  users := []
  userBindings := []
  tokens := []
  tokenCounter := 0
  consulTokenCounter := 0

/-- A reachable backend in the `Ready` lifecycle stage. -/
def readyBackend : Backend :=
  { baseBackend with initialized := true }

/-- A client holding an identity-based token with every capability. -/
def clientAll : SecretClientState where
  authToken := "tok"
  tokenKind := TokenKind.Identity
  canRead := true
  canWrite := true
  canGenerateConsulToken := true

/-! ## Helper lemmas -/

theorem bool_true_of_not_false {b : Bool} (h : ¬b = false) : b = true := by
  cases b
  · exact absurd rfl h
  · rfl

theorem consulTokenName_length (n : Nat) : (consulTokenName n).length = n + 1 := by
  show (List.replicate (n + 1) 'c').length = n + 1
  simp

/-- Inversion of a successful `GenerateConsulToken`. -/
theorem generateConsulToken_ok {st : SecretClientState} {bk : Backend}
    {key t : String} {bk' : Backend}
    (h : GenerateConsulToken st bk key = .ok (t, bk')) :
    t = consulTokenName bk.consulTokenCounter ∧
    bk'.consulTokenCounter = bk.consulTokenCounter + 1 ∧
    bk'.reachable = bk.reachable ∧
    st.canGenerateConsulToken = true ∧ bk.reachable = true := by
  rw [GenerateConsulToken] at h
  by_cases h1 : bk.reachable = false
  · rw [if_pos h1] at h
    exact Except.noConfusion h
  · rw [if_neg h1] at h
    by_cases h2 : st.canGenerateConsulToken = false
    · rw [if_pos h2] at h
      exact Except.noConfusion h
    · rw [if_neg h2] at h
      injection h with h'
      injection h' with ht hb
      subst ht
      subst hb
      exact ⟨rfl, rfl, rfl, bool_true_of_not_false h2, bool_true_of_not_false h1⟩

/-! ## Claims -/

/-- C3: `Init(secretThreshold, secretShares)` succeeds only from the
`Uninitialized` state, failing `AlreadyInitialized` in every other state,
and fails `Invalid` unless both arguments are positive and
`secretThreshold ≤ secretShares`. -/
theorem C3_init_requirements :
    (∀ (bk : Backend) (t s : Int), bk.initialized = true →
       Init bk t s = .error .AlreadyInitialized) ∧
    (∀ (bk : Backend) (t s : Int), bk.initialized = false →
       ¬(0 < t ∧ 0 < s ∧ t ≤ s) → Init bk t s = .error .Invalid) ∧
    (∀ (bk : Backend) (t s : Int), bk.initialized = false →
       0 < t → t ≤ s → ∃ r bk', Init bk t s = .ok (r, bk')) := by
  refine ⟨?_, ?_, ?_⟩
  · intro bk t s h
    rw [Init, if_pos h]
  · intro bk t s h hargs
    rw [Init, if_neg (by rw [h]; exact Bool.false_ne_true),
        if_pos (fun hc => hargs ⟨hc.1, lt_of_lt_of_le hc.1 hc.2, hc.2⟩)]
  · intro bk t s h h1 h2
    exact ⟨{ keysBase64 := (List.range s.toNat).map shareName, rootToken := "root" },
           { bk with
             initialized := true
             secretThreshold := t.toNat
             secretShares := s.toNat
             unsealKeys := (List.range s.toNat).map shareName
             suppliedShares := []
             rootToken := "root" },
           by rw [Init, if_neg (by rw [h]; exact Bool.false_ne_true),
                  if_neg (not_not_intro ⟨h1, h2⟩)]⟩

/-- Witness for C3 at concrete inputs. -/
theorem C3_witness :
    Init readyBackend 1 1 = .error .AlreadyInitialized ∧
    Init baseBackend 0 1 = .error .Invalid ∧
    ∃ r bk', Init baseBackend 2 3 = .ok (r, bk') :=
  ⟨C3_init_requirements.1 readyBackend 1 1 rfl,
   C3_init_requirements.2.1 baseBackend 0 1 rfl (by decide),
   C3_init_requirements.2.2 baseBackend 2 3 rfl (by decide) (by decide)⟩

/-- C4: two successful `GenerateConsulToken` calls with the same
`serviceKey` return distinct token values — a fresh token is issued every
time, never a cached value. -/
theorem C4_generate_consul_token_fresh :
    ∀ (st : SecretClientState) (bk : Backend) (serviceKey t1 t2 : String)
      (bk1 bk2 : Backend),
      GenerateConsulToken st bk serviceKey = .ok (t1, bk1) →
      GenerateConsulToken st bk1 serviceKey = .ok (t2, bk2) →
      t1 ≠ t2 := by
  intro st bk key t1 t2 bk1 bk2 h1 h2
  obtain ⟨ht1, hc1, _, _, _⟩ := generateConsulToken_ok h1
  obtain ⟨ht2, _, _, _, _⟩ := generateConsulToken_ok h2
  rw [ht1, ht2, hc1]
  intro h
  have hlen := congrArg String.length h
  rw [consulTokenName_length, consulTokenName_length] at hlen
  omega

/-- Witness for C4 at concrete inputs. -/
theorem C4_witness : consulTokenName 0 ≠ consulTokenName 1 :=
  C4_generate_consul_token_fresh clientAll baseBackend "svc"
    (consulTokenName 0) (consulTokenName 1)
    { baseBackend with consulTokenCounter := 1 }
    { baseBackend with consulTokenCounter := 2 } rfl rfl

/-- C10: every `SecretStoreClient` method except `HealthCheck`, `Init`,
`Unseal` and `RegenRootToken` takes its authenticating token as an explicit
parameter (those four take none), so the store client keeps no held token —
unlike `SecretClient`, whose single held AuthToken is replaced by
`SetAuthToken` leaving every other client field unchanged. -/
theorem C10_store_client_token_explicit :
    (∀ op : SecretStoreOp,
       takesAuthTokenParam op = false ↔
         (op = SecretStoreOp.HealthCheck ∨ op = SecretStoreOp.Init ∨
          op = SecretStoreOp.Unseal ∨ op = SecretStoreOp.RegenRootToken)) ∧
    (∀ (st : SecretClientState) (tok : String) (st' : SecretClientState),
       SetAuthToken st tok = .ok st' →
         st'.authToken = tok ∧ st'.tokenKind = st.tokenKind ∧
         st'.canRead = st.canRead ∧ st'.canWrite = st.canWrite ∧
         st'.canGenerateConsulToken = st.canGenerateConsulToken) := by
  constructor
  · decide
  · intro st tok st' h
    injection h with h'
    subst h'
    exact ⟨rfl, rfl, rfl, rfl, rfl⟩

/-- Witness for C10 at concrete inputs. -/
theorem C10_witness :
    (takesAuthTokenParam SecretStoreOp.Unseal = false ↔
       (SecretStoreOp.Unseal = SecretStoreOp.HealthCheck ∨
        SecretStoreOp.Unseal = SecretStoreOp.Init ∨
        SecretStoreOp.Unseal = SecretStoreOp.Unseal ∨
        SecretStoreOp.Unseal = SecretStoreOp.RegenRootToken)) ∧
    (({ clientAll with authToken := "tok2" } : SecretClientState).authToken = "tok2" ∧
     ({ clientAll with authToken := "tok2" } : SecretClientState).tokenKind = clientAll.tokenKind ∧
     ({ clientAll with authToken := "tok2" } : SecretClientState).canRead = clientAll.canRead ∧
     ({ clientAll with authToken := "tok2" } : SecretClientState).canWrite = clientAll.canWrite ∧
     ({ clientAll with authToken := "tok2" } : SecretClientState).canGenerateConsulToken =
       clientAll.canGenerateConsulToken) :=
  ⟨C10_store_client_token_explicit.1 SecretStoreOp.Unseal,
   C10_store_client_token_explicit.2 clientAll "tok2"
     { clientAll with authToken := "tok2" } rfl⟩

theorem decodeJWT_encodeJWT (t : String) : decodeJWT (encodeJWT t) = some t := rfl

/-- C5: `IsJWTValid` mutates no state; it errors only when validation
itself cannot be performed (backend unreachable); every evaluable JWT that
is invalid — including any syntactically invalid string, and any decodable
JWT asserting a token other than the currently-held one — yields
`(false, nil)`; and a JWT produced by `GetSelfJWT` for the currently-held
token yields `(true, nil)`. -/
theorem C5_is_jwt_valid_contract :
    (∀ (st : SecretClientState) (bk : Backend) (j : String) (b : Bool)
       (st' : SecretClientState) (bk' : Backend),
       IsJWTValid st bk j = .ok (b, st', bk') → st' = st ∧ bk' = bk) ∧
    (∀ (st : SecretClientState) (bk : Backend) (j : String) (e : SecretsError),
       IsJWTValid st bk j = .error e →
         bk.reachable = false ∧ e = SecretsError.Unreachable) ∧
    (∀ (st : SecretClientState) (bk : Backend) (j : String),
       bk.reachable = true → decodeJWT j = none →
       IsJWTValid st bk j = .ok (false, st, bk)) ∧
    (∀ (st : SecretClientState) (bk : Backend) (j tok : String),
       bk.reachable = true → decodeJWT j = some tok → tok ≠ st.authToken →
       IsJWTValid st bk j = .ok (false, st, bk)) ∧
    (∀ (st : SecretClientState) (bk : Backend) (serviceKey j : String),
       GetSelfJWT st bk serviceKey = .ok j →
       IsJWTValid st bk j = .ok (true, st, bk)) := by
  refine ⟨?_, ?_, ?_, ?_, ?_⟩
  · intro st bk j b st' bk' h
    rw [IsJWTValid] at h
    by_cases h1 : bk.reachable = false
    · rw [if_pos h1] at h
      exact Except.noConfusion h
    · rw [if_neg h1] at h
      cases hd : decodeJWT j <;> rw [hd] at h <;>
        · injection h with h'
          injection h' with hb hrest
          injection hrest with hst hbk
          exact ⟨hst.symm, hbk.symm⟩
  · intro st bk j e h
    rw [IsJWTValid] at h
    by_cases h1 : bk.reachable = false
    · rw [if_pos h1] at h
      injection h with h'
      exact ⟨h1, h'.symm⟩
    · rw [if_neg h1] at h
      cases hd : decodeJWT j <;> rw [hd] at h <;> exact Except.noConfusion h
  · intro st bk j hr hd
    rw [IsJWTValid, if_neg (by simp [hr]), hd]
  · intro st bk j tok hr hd hne
    rw [IsJWTValid, if_neg (by simp [hr]), hd]
    show Except.ok ((tok == st.authToken), st, bk) = Except.ok (false, st, bk)
    rw [beq_eq_false_iff_ne.mpr hne]
  · intro st bk serviceKey j h
    rw [GetSelfJWT] at h
    by_cases h1 : bk.reachable = false
    · rw [if_pos h1] at h
      exact Except.noConfusion h
    · rw [if_neg h1] at h
      by_cases h2 : st.tokenKind ≠ TokenKind.Identity
      · rw [if_pos h2] at h
        exact Except.noConfusion h
      · rw [if_neg h2] at h
        injection h with h'
        subst h'
        rw [IsJWTValid, if_neg h1, decodeJWT_encodeJWT]
        show Except.ok ((st.authToken == st.authToken), st, bk) = Except.ok (true, st, bk)
        rw [beq_self_eq_true]

/-- Witness for C5 at concrete inputs. -/
theorem C5_witness :
    (clientAll = clientAll ∧ baseBackend = baseBackend) ∧
    IsJWTValid clientAll baseBackend "garbage" = .ok (false, clientAll, baseBackend) ∧
    IsJWTValid clientAll baseBackend (encodeJWT "tok") = .ok (true, clientAll, baseBackend) :=
  ⟨C5_is_jwt_valid_contract.1 clientAll baseBackend "garbage" false clientAll
     baseBackend rfl,
   C5_is_jwt_valid_contract.2.2.1 clientAll baseBackend "garbage" rfl (by decide),
   C5_is_jwt_valid_contract.2.2.2.2 clientAll baseBackend "svc" (encodeJWT "tok") rfl⟩

/-- Inversion of a successful `EnableKVSecretEngine`. -/
theorem enableKV_ok {bk : Backend} {t m v : String} {bk1 : Backend}
    (h : EnableKVSecretEngine bk t m v = .ok bk1) :
    adminGuard bk1 = none ∧ alookup bk1.kvEngines m = some v := by
  rw [EnableKVSecretEngine] at h
  cases hg : adminGuard bk with
  | some e =>
      rw [hg] at h
      exact Except.noConfusion h
  | none =>
      rw [hg] at h
      cases hl : alookup bk.kvEngines m with
      | some v0 =>
          rw [hl] at h
          replace h : (if v0 = v then Except.ok bk
              else Except.error SecretsError.Conflict) = Except.ok bk1 := h
          by_cases hv : v0 = v
          · rw [if_pos hv] at h
            injection h with h'
            subst h'
            exact ⟨hg, hv ▸ hl⟩
          · rw [if_neg hv] at h
            exact Except.noConfusion h
      | none =>
          rw [hl] at h
          replace h : Except.ok { bk with kvEngines := aupsert bk.kvEngines m v }
              = Except.ok bk1 := h
          injection h with h'
          subst h'
          refine ⟨hg, ?_⟩
          show alookup (aupsert bk.kvEngines m v) m = some v
          rw [alookup_aupsert, if_pos rfl]

/-- Inversion of a successful `EnableConsulSecretEngine`. -/
theorem enableConsul_ok {bk : Backend} {t m v : String} {bk1 : Backend}
    (h : EnableConsulSecretEngine bk t m v = .ok bk1) :
    adminGuard bk1 = none ∧ alookup bk1.consulEngines m = some v := by
  rw [EnableConsulSecretEngine] at h
  cases hg : adminGuard bk with
  | some e =>
      rw [hg] at h
      exact Except.noConfusion h
  | none =>
      rw [hg] at h
      cases hl : alookup bk.consulEngines m with
      | some v0 =>
          rw [hl] at h
          replace h : (if v0 = v then Except.ok bk
              else Except.error SecretsError.Conflict) = Except.ok bk1 := h
          by_cases hv : v0 = v
          · rw [if_pos hv] at h
            injection h with h'
            subst h'
            exact ⟨hg, hv ▸ hl⟩
          · rw [if_neg hv] at h
            exact Except.noConfusion h
      | none =>
          rw [hl] at h
          replace h : Except.ok { bk with consulEngines := aupsert bk.consulEngines m v }
              = Except.ok bk1 := h
          injection h with h'
          subst h'
          refine ⟨hg, ?_⟩
          show alookup (aupsert bk.consulEngines m v) m = some v
          rw [alookup_aupsert, if_pos rfl]

/-- Inversion of a successful `EnablePasswordAuth`. -/
theorem enablePasswordAuth_ok {bk : Backend} {t m : String} {bk1 : Backend}
    (h : EnablePasswordAuth bk t m = .ok bk1) :
    adminGuard bk1 = none ∧ bk1.passwordAuthMounts.contains m = true := by
  rw [EnablePasswordAuth] at h
  cases hg : adminGuard bk with
  | some e =>
      rw [hg] at h
      exact Except.noConfusion h
  | none =>
      rw [hg] at h
      replace h : (if bk.passwordAuthMounts.contains m = true then Except.ok bk
          else Except.ok
            { bk with passwordAuthMounts := m :: bk.passwordAuthMounts })
          = Except.ok bk1 := h
      by_cases hc : bk.passwordAuthMounts.contains m = true
      · rw [if_pos hc] at h
        injection h with h'
        subst h'
        exact ⟨hg, hc⟩
      · rw [if_neg hc] at h
        injection h with h'
        subst h'
        refine ⟨hg, ?_⟩
        show (m :: bk.passwordAuthMounts).contains m = true
        simp

/-- Inversion of a successful `CreateRole`. -/
theorem createRole_ok {bk : Backend} {t : String} {role : ConsulRole}
    {bk1 : Backend} (h : CreateRole bk t role = .ok bk1) :
    adminGuard bk1 = none ∧
    alookup bk1.consulRoles role.name = some role.policies := by
  rw [CreateRole] at h
  cases hg : adminGuard bk with
  | some e =>
      rw [hg] at h
      exact Except.noConfusion h
  | none =>
      rw [hg] at h
      cases hl : alookup bk.consulRoles role.name with
      | some cfg =>
          rw [hl] at h
          replace h : (if cfg = role.policies then Except.ok bk
              else Except.error SecretsError.Conflict) = Except.ok bk1 := h
          by_cases hv : cfg = role.policies
          · rw [if_pos hv] at h
            injection h with h'
            subst h'
            exact ⟨hg, hv ▸ hl⟩
          · rw [if_neg hv] at h
            exact Except.noConfusion h
      | none =>
          rw [hl] at h
          replace h : Except.ok
              { bk with
                consulRoles := aupsert bk.consulRoles role.name role.policies }
              = Except.ok bk1 := h
          injection h with h'
          subst h'
          refine ⟨hg, ?_⟩
          show alookup (aupsert bk.consulRoles role.name role.policies) role.name
            = some role.policies
          rw [alookup_aupsert, if_pos rfl]

/-- Inversion of a successful `CreateNamedIdentityKey`. -/
theorem createNamedIdentityKey_ok {bk : Backend} {t k alg : String}
    {bk1 : Backend} (h : CreateNamedIdentityKey bk t k alg = .ok bk1) :
    adminGuard bk1 = none ∧ alookup bk1.identityKeys k = some alg := by
  rw [CreateNamedIdentityKey] at h
  cases hg : adminGuard bk with
  | some e =>
      rw [hg] at h
      exact Except.noConfusion h
  | none =>
      rw [hg] at h
      cases hl : alookup bk.identityKeys k with
      | some alg0 =>
          rw [hl] at h
          replace h : (if alg0 = alg then Except.ok bk
              else Except.error SecretsError.Conflict) = Except.ok bk1 := h
          by_cases hv : alg0 = alg
          · rw [if_pos hv] at h
            injection h with h'
            subst h'
            exact ⟨hg, hv ▸ hl⟩
          · rw [if_neg hv] at h
            exact Except.noConfusion h
      | none =>
          rw [hl] at h
          replace h : Except.ok
              { bk with identityKeys := aupsert bk.identityKeys k alg }
              = Except.ok bk1 := h
          injection h with h'
          subst h'
          refine ⟨hg, ?_⟩
          show alookup (aupsert bk.identityKeys k alg) k = some alg
          rw [alookup_aupsert, if_pos rfl]

/-- Inversion of a successful `CreateOrUpdateIdentity`. -/
theorem createOrUpdateIdentity_ok {bk : Backend} {t name : String}
    {md : List (String × String)} {pols : List String} {idv : String}
    {bk1 : Backend}
    (h : CreateOrUpdateIdentity bk t name md pols = .ok (idv, bk1)) :
    adminGuard bk1 = none ∧ idv = name ∧
    alookup bk1.identityCfgs name = some (md, pols) := by
  rw [CreateOrUpdateIdentity] at h
  cases hg : adminGuard bk with
  | some e =>
      rw [hg] at h
      exact Except.noConfusion h
  | none =>
      rw [hg] at h
      cases hl : alookup bk.identityCfgs name with
      | some cfg =>
          rw [hl] at h
          replace h : (if cfg = (md, pols) then Except.ok (name, bk)
              else Except.error SecretsError.Conflict) = Except.ok (idv, bk1) := h
          by_cases hv : cfg = (md, pols)
          · rw [if_pos hv] at h
            injection h with h'
            injection h' with hid hbk
            subst hid
            subst hbk
            exact ⟨hg, rfl, hv ▸ hl⟩
          · rw [if_neg hv] at h
            exact Except.noConfusion h
      | none =>
          rw [hl] at h
          replace h : Except.ok (name,
              { bk with
                identityCfgs := aupsert bk.identityCfgs name (md, pols)
                identities := name :: bk.identities }) = Except.ok (idv, bk1) := h
          injection h with h'
          injection h' with hid hbk
          subst hid
          subst hbk
          refine ⟨hg, rfl, ?_⟩
          show alookup (aupsert bk.identityCfgs name (md, pols)) name
            = some (md, pols)
          rw [alookup_aupsert, if_pos rfl]

/-- Inversion of a successful `CreateOrUpdateUser`. -/
theorem createOrUpdateUser_ok {bk : Backend} {t m u pw ttl : String}
    {pols : List String} {bk1 : Backend}
    (h : CreateOrUpdateUser bk t m u pw ttl pols = .ok bk1) :
    adminGuard bk1 = none ∧ userLookup bk1 m u = some (pw, ttl, pols) := by
  rw [CreateOrUpdateUser] at h
  cases hg : adminGuard bk with
  | some e =>
      rw [hg] at h
      exact Except.noConfusion h
  | none =>
      rw [hg] at h
      cases hl : userLookup bk m u with
      | some cfg =>
          rw [hl] at h
          replace h : (if cfg = (pw, ttl, pols) then Except.ok bk
              else Except.error SecretsError.Conflict) = Except.ok bk1 := h
          by_cases hv : cfg = (pw, ttl, pols)
          · rw [if_pos hv] at h
            injection h with h'
            subst h'
            exact ⟨hg, hv ▸ hl⟩
          · rw [if_neg hv] at h
            exact Except.noConfusion h
      | none =>
          rw [hl] at h
          replace h : Except.ok
              { bk with
                users := aupsert bk.users m
                  (aupsert ((alookup bk.users m).getD []) u (pw, ttl, pols)) }
              = Except.ok bk1 := h
          injection h with h'
          subst h'
          refine ⟨hg, ?_⟩
          show alookup ((alookup (aupsert bk.users m
              (aupsert ((alookup bk.users m).getD []) u (pw, ttl, pols)))
              m).getD []) u = some (pw, ttl, pols)
          rw [alookup_aupsert, if_pos rfl]
          show alookup (aupsert ((alookup bk.users m).getD []) u
              (pw, ttl, pols)) u = some (pw, ttl, pols)
          rw [alookup_aupsert, if_pos rfl]

/-- Inversion of a successful `CreateOrUpdateIdentityRole`. -/
theorem createOrUpdateIdentityRole_ok {bk : Backend}
    {t role k tmpl ttl : String} {bk1 : Backend}
    (h : CreateOrUpdateIdentityRole bk t role k tmpl ttl = .ok bk1) :
    adminGuard bk1 = none ∧
    (alookup bk1.identityKeys k).isNone = false ∧
    alookup bk1.identityRoles role = some (k, tmpl, ttl) := by
  rw [CreateOrUpdateIdentityRole] at h
  cases hg : adminGuard bk with
  | some e =>
      rw [hg] at h
      exact Except.noConfusion h
  | none =>
      rw [hg] at h
      by_cases hk : (alookup bk.identityKeys k).isNone = true
      · rw [if_pos hk] at h
        exact Except.noConfusion h
      · rw [if_neg hk] at h
        have hk' : (alookup bk.identityKeys k).isNone = false := by
          cases hx : (alookup bk.identityKeys k).isNone
          · rfl
          · exact absurd hx hk
        cases hl : alookup bk.identityRoles role with
        | some cfg =>
            rw [hl] at h
            replace h : (if cfg = (k, tmpl, ttl) then Except.ok bk
                else Except.error SecretsError.Conflict) = Except.ok bk1 := h
            by_cases hv : cfg = (k, tmpl, ttl)
            · rw [if_pos hv] at h
              injection h with h'
              subst h'
              exact ⟨hg, hk', hv ▸ hl⟩
            · rw [if_neg hv] at h
              exact Except.noConfusion h
        | none =>
            rw [hl] at h
            replace h : Except.ok
                { bk with
                  identityRoles := aupsert bk.identityRoles role (k, tmpl, ttl) }
                = Except.ok bk1 := h
            injection h with h'
            subst h'
            refine ⟨hg, hk', ?_⟩
            show alookup (aupsert bk.identityRoles role (k, tmpl, ttl)) role
              = some (k, tmpl, ttl)
            rw [alookup_aupsert, if_pos rfl]

/-- C6: the Enable/Create policy of the Secret Store Client — calling the
operation again on an already-correct target is a no-op success, and a
target existing with a different configuration fails `Conflict` — holds
for every Enable/Create operation: `EnableKVSecretEngine`
(`kvVersion`), `EnableConsulSecretEngine` (`defaultLeaseTTL`),
`EnablePasswordAuth` (which carries no configuration, so re-enabling is
always a no-op success), `CreateRole` (role policies),
`CreateNamedIdentityKey` (algorithm), `CreateOrUpdateIdentity`
(metadata and policies), `CreateOrUpdateUser` (password, TTL and token
policies) and `CreateOrUpdateIdentityRole` (template and JWT TTL). -/
theorem C6_enable_create_policy :
    (∀ (bk : Backend) (t m v : String) (bk1 : Backend),
       EnableKVSecretEngine bk t m v = .ok bk1 →
         EnableKVSecretEngine bk1 t m v = .ok bk1 ∧
         ∀ v', v' ≠ v → EnableKVSecretEngine bk1 t m v' = .error .Conflict) ∧
    (∀ (bk : Backend) (t m v : String) (bk1 : Backend),
       EnableConsulSecretEngine bk t m v = .ok bk1 →
         EnableConsulSecretEngine bk1 t m v = .ok bk1 ∧
         ∀ v', v' ≠ v → EnableConsulSecretEngine bk1 t m v' = .error .Conflict) ∧
    (∀ (bk : Backend) (t m : String) (bk1 : Backend),
       EnablePasswordAuth bk t m = .ok bk1 →
         EnablePasswordAuth bk1 t m = .ok bk1) ∧
    (∀ (bk : Backend) (t : String) (role : ConsulRole) (bk1 : Backend),
       CreateRole bk t role = .ok bk1 →
         CreateRole bk1 t role = .ok bk1 ∧
         ∀ role' : ConsulRole, role'.name = role.name →
           role'.policies ≠ role.policies →
           CreateRole bk1 t role' = .error .Conflict) ∧
    (∀ (bk : Backend) (t k alg : String) (bk1 : Backend),
       CreateNamedIdentityKey bk t k alg = .ok bk1 →
         CreateNamedIdentityKey bk1 t k alg = .ok bk1 ∧
         ∀ alg', alg' ≠ alg →
           CreateNamedIdentityKey bk1 t k alg' = .error .Conflict) ∧
    (∀ (bk : Backend) (t name : String) (md : List (String × String))
       (pols : List String) (idv : String) (bk1 : Backend),
       CreateOrUpdateIdentity bk t name md pols = .ok (idv, bk1) →
         CreateOrUpdateIdentity bk1 t name md pols = .ok (idv, bk1) ∧
         ∀ (md' : List (String × String)) (pols' : List String),
           (md', pols') ≠ (md, pols) →
           CreateOrUpdateIdentity bk1 t name md' pols' = .error .Conflict) ∧
    (∀ (bk : Backend) (t m u pw ttl : String) (pols : List String)
       (bk1 : Backend),
       CreateOrUpdateUser bk t m u pw ttl pols = .ok bk1 →
         CreateOrUpdateUser bk1 t m u pw ttl pols = .ok bk1 ∧
         ∀ (pw' ttl' : String) (pols' : List String),
           (pw', ttl', pols') ≠ (pw, ttl, pols) →
           CreateOrUpdateUser bk1 t m u pw' ttl' pols' = .error .Conflict) ∧
    (∀ (bk : Backend) (t role k tmpl ttl : String) (bk1 : Backend),
       CreateOrUpdateIdentityRole bk t role k tmpl ttl = .ok bk1 →
         CreateOrUpdateIdentityRole bk1 t role k tmpl ttl = .ok bk1 ∧
         ∀ tmpl' ttl', (tmpl', ttl') ≠ (tmpl, ttl) →
           CreateOrUpdateIdentityRole bk1 t role k tmpl' ttl' =
             .error .Conflict) := by
  refine ⟨?_, ?_, ?_, ?_, ?_, ?_, ?_, ?_⟩
  · intro bk t m v bk1 h
    obtain ⟨hg, hl⟩ := enableKV_ok h
    constructor
    · rw [EnableKVSecretEngine, hg, hl]
      show (if v = v then Except.ok bk1 else Except.error SecretsError.Conflict) = Except.ok bk1
      rw [if_pos rfl]
    · intro v' hv'
      rw [EnableKVSecretEngine, hg, hl]
      show (if v = v' then Except.ok bk1 else Except.error SecretsError.Conflict)
        = Except.error SecretsError.Conflict
      rw [if_neg (fun hc : v = v' => hv' hc.symm)]
  · intro bk t m v bk1 h
    obtain ⟨hg, hl⟩ := enableConsul_ok h
    constructor
    · rw [EnableConsulSecretEngine, hg, hl]
      show (if v = v then Except.ok bk1 else Except.error SecretsError.Conflict) = Except.ok bk1
      rw [if_pos rfl]
    · intro v' hv'
      rw [EnableConsulSecretEngine, hg, hl]
      show (if v = v' then Except.ok bk1 else Except.error SecretsError.Conflict)
        = Except.error SecretsError.Conflict
      rw [if_neg (fun hc : v = v' => hv' hc.symm)]
  · intro bk t m bk1 h
    obtain ⟨hg, hc⟩ := enablePasswordAuth_ok h
    rw [EnablePasswordAuth, hg, hc]
    rfl
  · intro bk t role bk1 h
    obtain ⟨hg, hl⟩ := createRole_ok h
    constructor
    · rw [CreateRole, hg, hl]
      show (if role.policies = role.policies then Except.ok bk1
            else Except.error SecretsError.Conflict) = Except.ok bk1
      rw [if_pos rfl]
    · intro role' hnm hne
      rw [CreateRole, hg, hnm, hl]
      show (if role.policies = role'.policies then Except.ok bk1
            else Except.error SecretsError.Conflict)
        = Except.error SecretsError.Conflict
      rw [if_neg (fun hc : role.policies = role'.policies => hne hc.symm)]
  · intro bk t k alg bk1 h
    obtain ⟨hg, hl⟩ := createNamedIdentityKey_ok h
    constructor
    · rw [CreateNamedIdentityKey, hg, hl]
      show (if alg = alg then Except.ok bk1
            else Except.error SecretsError.Conflict) = Except.ok bk1
      rw [if_pos rfl]
    · intro alg' hne
      rw [CreateNamedIdentityKey, hg, hl]
      show (if alg = alg' then Except.ok bk1
            else Except.error SecretsError.Conflict)
        = Except.error SecretsError.Conflict
      rw [if_neg (fun hc : alg = alg' => hne hc.symm)]
  · intro bk t name md pols idv bk1 h
    obtain ⟨hg, hid, hl⟩ := createOrUpdateIdentity_ok h
    constructor
    · rw [hid, CreateOrUpdateIdentity, hg, hl]
      show (if (md, pols) = (md, pols) then Except.ok (name, bk1)
            else Except.error SecretsError.Conflict) = Except.ok (name, bk1)
      rw [if_pos rfl]
    · intro md' pols' hne
      rw [CreateOrUpdateIdentity, hg, hl]
      show (if (md, pols) = (md', pols') then Except.ok (name, bk1)
            else Except.error SecretsError.Conflict)
        = Except.error SecretsError.Conflict
      refine if_neg (fun hc => ?_)
      injection hc with h1 h2
      exact hne (by rw [← h1, ← h2])
  · intro bk t m u pw ttl pols bk1 h
    obtain ⟨hg, hl⟩ := createOrUpdateUser_ok h
    constructor
    · rw [CreateOrUpdateUser, hg, hl]
      show (if (pw, ttl, pols) = (pw, ttl, pols) then Except.ok bk1
            else Except.error SecretsError.Conflict) = Except.ok bk1
      rw [if_pos rfl]
    · intro pw' ttl' pols' hne
      rw [CreateOrUpdateUser, hg, hl]
      show (if (pw, ttl, pols) = (pw', ttl', pols') then Except.ok bk1
            else Except.error SecretsError.Conflict)
        = Except.error SecretsError.Conflict
      refine if_neg (fun hc => ?_)
      injection hc with h1 h2
      injection h2 with h3 h4
      exact hne (by rw [← h1, ← h3, ← h4])
  · intro bk t role k tmpl ttl bk1 h
    obtain ⟨hg, hk, hl⟩ := createOrUpdateIdentityRole_ok h
    constructor
    · rw [CreateOrUpdateIdentityRole, hg, hk, hl]
      show (if (k, tmpl, ttl) = (k, tmpl, ttl) then Except.ok bk1
            else Except.error SecretsError.Conflict) = Except.ok bk1
      rw [if_pos rfl]
    · intro tmpl' ttl' hne
      rw [CreateOrUpdateIdentityRole, hg, hk, hl]
      show (if (k, tmpl, ttl) = (k, tmpl', ttl') then Except.ok bk1
            else Except.error SecretsError.Conflict)
        = Except.error SecretsError.Conflict
      refine if_neg (fun hc => ?_)
      injection hc with h1 h2
      injection h2 with h3 h4
      exact hne (by rw [← h3, ← h4])

/-- Backends holding one already-created target each, used to instantiate
the C6 policy. -/
def paBackend : Backend :=
  { readyBackend with passwordAuthMounts := ["userpass"] }

def roleBackend : Backend :=
  { readyBackend with consulRoles := [("r", ["pol"])] }

def keyBackend : Backend :=
  { readyBackend with identityKeys := [("k", "ed25519")] }

def identBackend : Backend :=
  { readyBackend with
    identityCfgs := [("alice", ([], ["p"]))]
    identities := ["alice"] }

def userBackend : Backend :=
  { readyBackend with users := [("userpass", [("alice", ("pw", "1h", ["p"]))])] }

def idRoleBackend : Backend :=
  { readyBackend with
    identityKeys := [("k", "ed25519")]
    identityRoles := [("idrole", ("k", "tmpl", "1h"))] }

/-- Witness for C6 at concrete inputs, one per Enable/Create operation. -/
theorem C6_witness :
    (EnableKVSecretEngine { readyBackend with kvEngines := [("secret", "2")] }
       "root" "secret" "2" = .ok { readyBackend with kvEngines := [("secret", "2")] } ∧
     EnableKVSecretEngine { readyBackend with kvEngines := [("secret", "2")] }
       "root" "secret" "1" = .error .Conflict) ∧
    (EnableConsulSecretEngine { readyBackend with consulEngines := [("consul", "1h")] }
       "root" "consul" "1h" = .ok { readyBackend with consulEngines := [("consul", "1h")] } ∧
     EnableConsulSecretEngine { readyBackend with consulEngines := [("consul", "1h")] }
       "root" "consul" "2h" = .error .Conflict) ∧
    EnablePasswordAuth paBackend "root" "userpass" = .ok paBackend ∧
    (CreateRole roleBackend "root" { name := "r", policies := ["pol"] } = .ok roleBackend ∧
     CreateRole roleBackend "root" { name := "r", policies := ["other"] } = .error .Conflict) ∧
    (CreateNamedIdentityKey keyBackend "root" "k" "ed25519" = .ok keyBackend ∧
     CreateNamedIdentityKey keyBackend "root" "k" "rsa" = .error .Conflict) ∧
    (CreateOrUpdateIdentity identBackend "root" "alice" [] ["p"] = .ok ("alice", identBackend) ∧
     CreateOrUpdateIdentity identBackend "root" "alice" [] ["q"] = .error .Conflict) ∧
    (CreateOrUpdateUser userBackend "root" "userpass" "alice" "pw" "1h" ["p"] = .ok userBackend ∧
     CreateOrUpdateUser userBackend "root" "userpass" "alice" "pw2" "1h" ["p"] = .error .Conflict) ∧
    (CreateOrUpdateIdentityRole idRoleBackend "root" "idrole" "k" "tmpl" "1h" = .ok idRoleBackend ∧
     CreateOrUpdateIdentityRole idRoleBackend "root" "idrole" "k" "tmpl2" "1h" = .error .Conflict) := by
  refine ⟨?_, ?_, ?_, ?_, ?_, ?_, ?_, ?_⟩
  · have h := C6_enable_create_policy.1 readyBackend "root" "secret" "2"
      { readyBackend with kvEngines := [("secret", "2")] } rfl
    exact ⟨h.1, h.2 "1" (by decide)⟩
  · have h := C6_enable_create_policy.2.1 readyBackend "root" "consul" "1h"
      { readyBackend with consulEngines := [("consul", "1h")] } rfl
    exact ⟨h.1, h.2 "2h" (by decide)⟩
  · exact C6_enable_create_policy.2.2.1 readyBackend "root" "userpass" paBackend rfl
  · have h := C6_enable_create_policy.2.2.2.1 readyBackend "root"
      { name := "r", policies := ["pol"] } roleBackend rfl
    exact ⟨h.1, h.2 { name := "r", policies := ["other"] } rfl (by decide)⟩
  · have h := C6_enable_create_policy.2.2.2.2.1 readyBackend "root" "k" "ed25519"
      keyBackend rfl
    exact ⟨h.1, h.2 "rsa" (by decide)⟩
  · have h := C6_enable_create_policy.2.2.2.2.2.1 readyBackend "root" "alice"
      [] ["p"] "alice" identBackend rfl
    exact ⟨h.1, h.2 [] ["q"] (by decide)⟩
  · have h := C6_enable_create_policy.2.2.2.2.2.2.1 readyBackend "root" "userpass"
      "alice" "pw" "1h" ["p"] userBackend rfl
    exact ⟨h.1, h.2 "pw2" "1h" ["p"] (by decide)⟩
  · have h := C6_enable_create_policy.2.2.2.2.2.2.2 keyBackend "root" "idrole"
      "k" "tmpl" "1h" idRoleBackend rfl
    exact ⟨h.1, h.2 "tmpl2" "1h" (by decide)⟩

/-- C7: `ConfigureConsulAccess` before any Consul secret engine is enabled,
`CreateOrUpdateIdentityRole` before its referenced identity key exists, and
`BindUserToIdentity` before the auth method is enabled or before the
identity exists, each fail with `PreconditionFailed` — not a generic
backend error. -/
theorem C7_ordering_preconditions :
    (∀ (bk : Backend) (t1 t2 host : String) (port : Int),
       adminGuard bk = none → bk.consulEngines = [] →
       ConfigureConsulAccess bk t1 t2 host port = .error .PreconditionFailed) ∧
    (∀ (bk : Backend) (tok role key tmpl ttl : String),
       adminGuard bk = none → alookup bk.identityKeys key = none →
       CreateOrUpdateIdentityRole bk tok role key tmpl ttl =
         .error .PreconditionFailed) ∧
    (∀ (bk : Backend) (tok ident handle user : String),
       adminGuard bk = none →
       (bk.authHandles.contains handle = false ∨
        bk.identities.contains ident = false) →
       BindUserToIdentity bk tok ident handle user =
         .error .PreconditionFailed) := by
  refine ⟨?_, ?_, ?_⟩
  · intro bk t1 t2 host port hg he
    rw [ConfigureConsulAccess, hg, he]
    rfl
  · intro bk tok role key tmpl ttl hg hk
    rw [CreateOrUpdateIdentityRole, hg, hk]
    rfl
  · intro bk tok ident handle user hg hmiss
    rw [BindUserToIdentity, hg]
    by_cases hh : bk.authHandles.contains handle = false
    · rw [if_pos hh]
    · rw [if_neg hh]
      cases hmiss with
      | inl h => exact absurd h hh
      | inr h => rw [h, if_pos rfl]

/-- Witness for C7 at concrete inputs. -/
theorem C7_witness :
    ConfigureConsulAccess readyBackend "t" "b" "localhost" 8500 =
      .error .PreconditionFailed ∧
    CreateOrUpdateIdentityRole readyBackend "t" "role" "key" "tmpl" "1h" =
      .error .PreconditionFailed ∧
    BindUserToIdentity readyBackend "t" "ident" "handle" "user" =
      .error .PreconditionFailed :=
  ⟨C7_ordering_preconditions.1 readyBackend "t" "b" "localhost" 8500 rfl rfl,
   C7_ordering_preconditions.2.1 readyBackend "t" "role" "key" "tmpl" "1h" rfl rfl,
   C7_ordering_preconditions.2.2 readyBackend "t" "ident" "handle" "user" rfl
     (Or.inl rfl)⟩

/-- C9: whenever `GetSecrets` with no requested keys succeeds, `GetKeys` on
the same path succeeds and returns exactly the key names of the returned
secret map (and nothing else — no values); conversely a successful
`GetKeys` result is exactly the key-name projection of the map `GetSecrets`
would return. -/
theorem C9_get_keys_matches_get_secrets :
    (∀ (st : SecretClientState) (bk : Backend) (p : String)
       (m : List (String × String)),
       GetSecrets st bk p [] = .ok m → GetKeys st bk p = .ok (m.map Prod.fst)) ∧
    (∀ (st : SecretClientState) (bk : Backend) (p : String) (ks : List String),
       GetKeys st bk p = .ok ks →
       ∃ m, GetSecrets st bk p [] = .ok m ∧ ks = m.map Prod.fst) := by
  constructor
  · intro st bk p m h
    rw [GetSecrets] at h
    by_cases h1 : bk.reachable = false
    · rw [if_pos h1] at h
      exact Except.noConfusion h
    · rw [if_neg h1] at h
      by_cases h2 : st.canRead = false
      · rw [if_pos h2] at h
        exact Except.noConfusion h
      · rw [if_neg h2] at h
        cases hl : alookup bk.kv p with
        | none =>
            rw [hl] at h
            exact Except.noConfusion h
        | some m0 =>
            rw [hl] at h
            replace h : Except.ok m0 = Except.ok m := h
            injection h with h'
            subst h'
            rw [GetKeys, if_neg h1, if_neg h2, hl]
  · intro st bk p ks h
    rw [GetKeys] at h
    by_cases h1 : bk.reachable = false
    · rw [if_pos h1] at h
      exact Except.noConfusion h
    · rw [if_neg h1] at h
      by_cases h2 : st.canRead = false
      · rw [if_pos h2] at h
        exact Except.noConfusion h
      · rw [if_neg h2] at h
        cases hl : alookup bk.kv p with
        | none =>
            rw [hl] at h
            exact Except.noConfusion h
        | some m0 =>
            rw [hl] at h
            injection h with h'
            subst h'
            refine ⟨m0, ?_, rfl⟩
            rw [GetSecrets, if_neg h1, if_neg h2, hl]
            rfl

/-- Witness for C9 at concrete inputs. -/
theorem C9_witness :
    GetKeys clientAll
      { baseBackend with kv := [("app", [("a", "1"), ("b", "2")])] } "app" =
      .ok ([("a", "1"), ("b", "2")].map Prod.fst) :=
  C9_get_keys_matches_get_secrets.1 clientAll
    { baseBackend with kv := [("app", [("a", "1"), ("b", "2")])] } "app"
    [("a", "1"), ("b", "2")] rfl

theorem tokenValueName_length (n : Nat) : (tokenValueName n).length = n + 1 := by
  show (List.replicate (n + 1) 't').length = n + 1
  simp

/-- Inversion of a successful `CreateToken`. -/
theorem createToken_ok {bk : Backend} {tok : String} {pols : List String}
    {v acc : String} {bk1 : Backend}
    (h : CreateToken bk tok pols = .ok ((v, acc), bk1)) :
    adminGuard bk = none ∧ v = tokenValueName bk.tokenCounter ∧
    acc = accessorName bk.tokenCounter ∧
    bk1 = { bk with
            tokens := { value := v, accessor := acc, policies := pols } :: bk.tokens
            tokenCounter := bk.tokenCounter + 1 } := by
  rw [CreateToken] at h
  cases hg : adminGuard bk with
  | some e =>
      rw [hg] at h
      exact Except.noConfusion h
  | none =>
      rw [hg] at h
      replace h : Except.ok
          ((tokenValueName bk.tokenCounter, accessorName bk.tokenCounter),
           { bk with
             tokens := { value := tokenValueName bk.tokenCounter
                         accessor := accessorName bk.tokenCounter
                         policies := pols } :: bk.tokens
             tokenCounter := bk.tokenCounter + 1 }) = Except.ok ((v, acc), bk1) := h
      injection h with h'
      injection h' with hpair hbk
      injection hpair with hv hacc
      subst hv
      subst hacc
      subst hbk
      exact ⟨rfl, rfl, rfl, rfl⟩

/-- Inversion of a successful `RevokeTokenAccessor`. -/
theorem revokeTokenAccessor_ok {bk : Backend} {tok acc : String} {bk2 : Backend}
    (h : RevokeTokenAccessor bk tok acc = .ok bk2) :
    bk2 = { bk with tokens := bk.tokens.filter (fun r => r.accessor ≠ acc) } := by
  rw [RevokeTokenAccessor] at h
  cases hg : adminGuard bk with
  | some e =>
      rw [hg] at h
      exact Except.noConfusion h
  | none =>
      rw [hg] at h
      cases hf : bk.tokens.find? (fun r => r.accessor == acc) with
      | none =>
          rw [hf] at h
          exact Except.noConfusion h
      | some r =>
          rw [hf] at h
          replace h : Except.ok
              { bk with tokens := bk.tokens.filter (fun r => r.accessor ≠ acc) }
              = Except.ok bk2 := h
          injection h with h'
          exact h'.symm

/-- `LookupToken` on a value matching no stored token fails `NotFound`. -/
theorem lookupToken_err {bk : Backend} {v : String}
    (hg : adminGuard bk = none)
    (hnone : bk.tokens.find? (fun r => r.value == v) = none) :
    LookupToken bk v = .error .NotFound := by
  rw [LookupToken, hg, hnone]

/-- `LookupTokenAccessor` on a found accessor returns that record's
metadata. -/
theorem lookupTokenAccessor_found {bk : Backend} {tok acc : String}
    {r : TokenRecord}
    (hg : adminGuard bk = none)
    (hf : bk.tokens.find? (fun rr => rr.accessor == acc) = some r) :
    LookupTokenAccessor bk tok acc =
      .ok { policies := r.policies, accessor := r.accessor } := by
  rw [LookupTokenAccessor, hg, hf]

/-- C8: after a successful `CreateToken`, `LookupTokenAccessor` with the
returned accessor yields metadata whose policies are those of the created
token; after a successful `RevokeTokenAccessor` for that accessor,
`LookupToken` on the original token value fails `NotFound`. -/
theorem C8_token_lifecycle :
    ∀ (bk : Backend) (tok : String) (pols : List String) (v acc : String)
      (bk1 : Backend),
      tokensWF bk →
      CreateToken bk tok pols = .ok ((v, acc), bk1) →
      LookupTokenAccessor bk1 tok acc =
        .ok { policies := pols, accessor := acc } ∧
      ∀ bk2, RevokeTokenAccessor bk1 tok acc = .ok bk2 →
        LookupToken bk2 v = .error .NotFound := by
  intro bk tok pols v acc bk1 hWF h
  obtain ⟨hg, hv, hacc, hbk1⟩ := createToken_ok h
  subst hv
  subst hacc
  have hg1 : adminGuard bk1 = none := by rw [hbk1]; exact hg
  have htok1 : bk1.tokens =
      { value := tokenValueName bk.tokenCounter
        accessor := accessorName bk.tokenCounter
        policies := pols } :: bk.tokens := by rw [hbk1]
  have hf : bk1.tokens.find?
      (fun rr => rr.accessor == accessorName bk.tokenCounter) =
      some { value := tokenValueName bk.tokenCounter
             accessor := accessorName bk.tokenCounter
             policies := pols } := by
    rw [htok1]
    exact List.find?_cons_of_pos _ (beq_self_eq_true _)
  constructor
  · exact lookupTokenAccessor_found hg1 hf
  · intro bk2 h2
    have hbk2 := revokeTokenAccessor_ok h2
    have hg2 : adminGuard bk2 = none := by rw [hbk2]; exact hg1
    apply lookupToken_err hg2
    rw [hbk2]
    show (bk1.tokens.filter
        (fun r => r.accessor ≠ accessorName bk.tokenCounter)).find?
        (fun r => r.value == tokenValueName bk.tokenCounter) = none
    apply List.find?_eq_none.mpr
    intro x hx
    have hpx := List.of_mem_filter hx
    have hxacc : x.accessor ≠ accessorName bk.tokenCounter := by simpa using hpx
    have hxmem : x ∈ bk1.tokens := List.mem_of_mem_filter hx
    rw [htok1] at hxmem
    rcases List.mem_cons.mp hxmem with hhead | htail
    · exact absurd (by rw [hhead]) hxacc
    · intro hbeq
      have hxv : x.value = tokenValueName bk.tokenCounter := eq_of_beq hbeq
      have hlen := congrArg String.length hxv
      rw [tokenValueName_length] at hlen
      have hWFx := (hWF x htail).1
      omega

/-- Witness for C8 at concrete inputs. -/
theorem C8_witness :
    LookupTokenAccessor
      { readyBackend with
        tokens := [{ value := tokenValueName 0, accessor := accessorName 0,
                     policies := ["p1"] }]
        tokenCounter := 1 } "root" (accessorName 0) =
      .ok { policies := ["p1"], accessor := accessorName 0 } ∧
    LookupToken
      { readyBackend with tokens := [], tokenCounter := 1 }
      (tokenValueName 0) = .error .NotFound := by
  have h := C8_token_lifecycle readyBackend "root" ["p1"]
    (tokenValueName 0) (accessorName 0)
    { readyBackend with
      tokens := [{ value := tokenValueName 0, accessor := accessorName 0,
                   policies := ["p1"] }]
      tokenCounter := 1 }
    (fun r hr => absurd hr (List.not_mem_nil r)) rfl
  exact ⟨h.1, h.2 { readyBackend with tokens := [], tokenCounter := 1 } rfl⟩

theorem applyUnseals_nil (bk : Backend) : applyUnseals bk [] = .ok bk := rfl

theorem applyUnseals_cons (bk : Backend) (c : List String)
    (rest : List (List String)) :
    applyUnseals bk (c :: rest) =
      match Unseal bk c with
      | .ok bk1 => applyUnseals bk1 rest
      | .error e => .error e := rfl

/-- Inversion of a successful `Unseal`: the supplied shares grow by exactly
the submitted keys and the rest of the lifecycle state is unchanged. -/
theorem unseal_ok_shape {bk : Backend} {keys : List String} {bk' : Backend}
    (h : Unseal bk keys = .ok bk') :
    bk'.suppliedShares = bk.suppliedShares ++ keys ∧
    bk'.secretThreshold = bk.secretThreshold ∧
    bk'.initialized = bk.initialized ∧
    bk'.unsealKeys = bk.unsealKeys := by
  rw [Unseal] at h
  by_cases h1 : bk.initialized = false
  · rw [if_pos h1] at h
    exact Except.noConfusion h
  · rw [if_neg h1] at h
    by_cases h2 : bk.secretThreshold ≤ bk.suppliedShares.length
    · rw [if_pos h2] at h
      exact Except.noConfusion h
    · rw [if_neg h2] at h
      by_cases h3 : ¬∀ k ∈ keys, k ∈ bk.unsealKeys
      · rw [if_pos h3] at h
        exact Except.noConfusion h
      · rw [if_neg h3] at h
        by_cases h4 : ¬(keys ++ bk.suppliedShares).Nodup
        · rw [if_pos h4] at h
          exact Except.noConfusion h
        · rw [if_neg h4] at h
          injection h with h'
          subst h'
          exact ⟨rfl, rfl, rfl, rfl⟩

/-- Across any sequence of successful `Unseal` calls, the threshold is
unchanged and the accumulated share count grows by the total number of
submitted keys. -/
theorem applyUnseals_shape :
    ∀ (calls : List (List String)) (bk bk' : Backend),
      applyUnseals bk calls = .ok bk' →
      bk'.secretThreshold = bk.secretThreshold ∧
      bk'.suppliedShares.length =
        bk.suppliedShares.length + (calls.map List.length).sum := by
  intro calls
  induction calls with
  | nil =>
      intro bk bk' h
      replace h : Except.ok bk = Except.ok bk' := h
      injection h with h'
      subst h'
      simp
  | cons c rest ih =>
      intro bk bk' h
      rw [applyUnseals_cons] at h
      cases hc : Unseal bk c with
      | error e =>
          rw [hc] at h
          exact Except.noConfusion h
      | ok bk1 =>
          rw [hc] at h
          replace h : applyUnseals bk1 rest = .ok bk' := h
          obtain ⟨hth, hlen⟩ := ih bk1 bk' h
          obtain ⟨hsup, hth1, _, _⟩ := unseal_ok_shape hc
          refine ⟨by rw [hth, hth1], ?_⟩
          rw [hlen, hsup, List.length_append]
          simp
          omega

/-- C2: the backend stays sealed while successful `Unseal` calls have
together supplied fewer than `secretThreshold` distinct valid shares
(shares accumulate across calls); a malformed share or a share duplicating
an already-supplied one fails `Invalid`; a successful `Unseal` leaves the
backend unsealed exactly when the accumulated shares reach the threshold;
and `Unseal` before `Init` fails (wrong state). -/
theorem C2_unseal_lifecycle :
    (∀ (bk : Backend) (calls : List (List String)) (bk' : Backend),
       bk.suppliedShares = [] →
       applyUnseals bk calls = .ok bk' →
       (calls.map List.length).sum < bk.secretThreshold →
       bk'.sealedB = true) ∧
    (∀ (bk : Backend) (keys : List String) (k : String),
       bk.initialized = true → bk.sealedB = true →
       k ∈ keys → k ∉ bk.unsealKeys →
       Unseal bk keys = .error .Invalid) ∧
    (∀ (bk : Backend) (keys : List String) (k : String),
       bk.initialized = true → bk.sealedB = true →
       k ∈ keys → k ∈ bk.suppliedShares →
       Unseal bk keys = .error .Invalid) ∧
    (∀ (bk : Backend) (keys : List String) (bk' : Backend),
       Unseal bk keys = .ok bk' →
       (bk'.sealedB = false ↔
        bk.secretThreshold ≤ bk.suppliedShares.length + keys.length)) ∧
    (∀ (bk : Backend) (keys : List String),
       bk.initialized = false →
       Unseal bk keys = .error .PreconditionFailed) := by
  refine ⟨?_, ?_, ?_, ?_, ?_⟩
  · intro bk calls bk' hsup h hlt
    obtain ⟨hth, hlen⟩ := applyUnseals_shape calls bk bk' h
    rw [Backend.sealedB, decide_eq_true_eq, hth, hlen, hsup]
    simpa using hlt
  · intro bk keys k hinit hsealed hkmem hknot
    have hnotle : ¬bk.secretThreshold ≤ bk.suppliedShares.length := by
      rw [Backend.sealedB, decide_eq_true_eq] at hsealed
      omega
    rw [Unseal, if_neg (by rw [hinit]; exact fun hc => Bool.noConfusion hc),
        if_neg hnotle, if_pos (fun hall => hknot (hall k hkmem))]
  · intro bk keys k hinit hsealed hkmem hksup
    have hnotle : ¬bk.secretThreshold ≤ bk.suppliedShares.length := by
      rw [Backend.sealedB, decide_eq_true_eq] at hsealed
      omega
    rw [Unseal, if_neg (by rw [hinit]; exact fun hc => Bool.noConfusion hc),
        if_neg hnotle]
    by_cases hall : ∀ k' ∈ keys, k' ∈ bk.unsealKeys
    · rw [if_neg (not_not_intro hall),
          if_pos (fun hnd => (List.nodup_append.mp hnd).2.2 hkmem hksup)]
    · rw [if_pos hall]
  · intro bk keys bk' h
    obtain ⟨hsup, hth, _, _⟩ := unseal_ok_shape h
    rw [Backend.sealedB, hsup, hth, List.length_append,
        decide_eq_false_iff_not, not_lt]
  · intro bk keys h
    rw [Unseal, if_pos h]

/-- A backend initialized with threshold 3 and 5 shares, used to
instantiate the unseal scenario. -/
def initializedBackend : Backend :=
  { baseBackend with
    initialized := true
    secretThreshold := 3
    secretShares := 5
    unsealKeys := [shareName 0, shareName 1, shareName 2, shareName 3, shareName 4] }

/-- Witness for C2 at concrete inputs: two of five shares leave the backend
sealed; a bogus share fails `Invalid`; a repeated share fails `Invalid`;
the remaining three shares unseal exactly at the threshold; `Unseal` before
`Init` fails. -/
theorem C2_witness :
    ({ initializedBackend with
       suppliedShares := [shareName 0, shareName 1] } : Backend).sealedB = true ∧
    Unseal initializedBackend ["bogus"] = .error .Invalid ∧
    Unseal { initializedBackend with suppliedShares := [shareName 0, shareName 1] }
      [shareName 0] = .error .Invalid ∧
    (({ initializedBackend with
        suppliedShares := [shareName 0, shareName 1, shareName 2, shareName 3,
                           shareName 4] } : Backend).sealedB = false ↔ 3 ≤ 2 + 3) ∧
    Unseal baseBackend [shareName 0] = .error .PreconditionFailed := by
  refine ⟨?_, ?_, ?_, ?_, ?_⟩
  · exact C2_unseal_lifecycle.1 initializedBackend
      [[shareName 0, shareName 1]]
      { initializedBackend with suppliedShares := [shareName 0, shareName 1] }
      rfl rfl (by decide)
  · exact C2_unseal_lifecycle.2.1 initializedBackend ["bogus"] "bogus"
      rfl rfl (by decide) (by decide)
  · exact C2_unseal_lifecycle.2.2.1
      { initializedBackend with suppliedShares := [shareName 0, shareName 1] }
      [shareName 0] (shareName 0) rfl rfl (by decide) (by decide)
  · exact C2_unseal_lifecycle.2.2.2.1
      { initializedBackend with suppliedShares := [shareName 0, shareName 1] }
      [shareName 2, shareName 3, shareName 4]
      { initializedBackend with
        suppliedShares := [shareName 0, shareName 1, shareName 2, shareName 3,
                           shareName 4] }
      rfl
  · exact C2_unseal_lifecycle.2.2.2.2 baseBackend [shareName 0] rfl

theorem applyStoreCalls_nil (st : SecretClientState) (bk : Backend) (p : String) :
    applyStoreCalls st bk p [] = .ok bk := rfl

theorem applyStoreCalls_cons (st : SecretClientState) (bk : Backend) (p : String)
    (s : List (String × String)) (rest : List (List (String × String))) :
    applyStoreCalls st bk p (s :: rest) =
      match StoreSecrets st bk p s with
      | .ok bk1 => applyStoreCalls st bk1 p rest
      | .error e => .error e := rfl

theorem lastStored_cons {β : Type} (s : List (String × β))
    (rest : List (List (String × β))) (k : String) :
    lastStored (s :: rest) k = orFallback (lastStored rest k) (lastLookup s k) := by
  rw [lastStored]

theorem selectKeys_cons (M : List (String × String)) (k : String)
    (rest : List String) :
    selectKeys M (k :: rest) =
      match alookup M k, selectKeys M rest with
      | some v, some s => some ((k, v) :: s)
      | _, _ => none := by
  rw [selectKeys]

/-- Inversion of a successful `StoreSecrets`. -/
theorem storeSecrets_ok {st : SecretClientState} {bk : Backend} {p : String}
    {secrets : List (String × String)} {bk1 : Backend}
    (h : StoreSecrets st bk p secrets = .ok bk1) :
    bk.reachable = true ∧ st.canWrite = true ∧
    bk1 = { bk with
            kv := aupsert bk.kv p
                    (aupsertAll ((alookup bk.kv p).getD []) secrets) } := by
  rw [StoreSecrets] at h
  by_cases h1 : bk.reachable = false
  · rw [if_pos h1] at h
    exact Except.noConfusion h
  · rw [if_neg h1] at h
    by_cases h2 : st.canWrite = false
    · rw [if_pos h2] at h
      exact Except.noConfusion h
    · rw [if_neg h2] at h
      by_cases h3 : (secrets.isEmpty || secrets.any fun q => q.1 = "") = true
      · rw [if_pos h3] at h
        exact Except.noConfusion h
      · rw [if_neg h3] at h
        injection h with h'
        exact ⟨bool_true_of_not_false h1, bool_true_of_not_false h2, h'.symm⟩

/-- The per-key content of the path after a sequence of successful store
calls: the most recently stored binding wins, with keys stored by no call
falling through to the path's prior content. -/
theorem applyStoreCalls_lookup :
    ∀ (stores : List (List (String × String))) (st : SecretClientState)
      (bk bk' : Backend) (p k : String),
      applyStoreCalls st bk p stores = .ok bk' →
      alookup ((alookup bk'.kv p).getD []) k =
        orFallback (lastStored stores k)
          (alookup ((alookup bk.kv p).getD []) k) := by
  intro stores
  induction stores with
  | nil =>
      intro st bk bk' p k h
      replace h : Except.ok bk = Except.ok bk' := h
      injection h with h'
      subst h'
      rfl
  | cons s rest ih =>
      intro st bk bk' p k h
      rw [applyStoreCalls_cons] at h
      cases hs : StoreSecrets st bk p s with
      | error e =>
          rw [hs] at h
          exact Except.noConfusion h
      | ok bk1 =>
          rw [hs] at h
          replace h : applyStoreCalls st bk1 p rest = .ok bk' := h
          obtain ⟨_, _, hbk1⟩ := storeSecrets_ok hs
          have hmain := ih st bk1 bk' p k h
          have hcur : alookup ((alookup bk1.kv p).getD []) k =
              orFallback (lastLookup s k)
                (alookup ((alookup bk.kv p).getD []) k) := by
            subst hbk1
            show alookup ((alookup (aupsert bk.kv p
                (aupsertAll ((alookup bk.kv p).getD []) s)) p).getD []) k = _
            rw [alookup_aupsert, if_pos rfl]
            show alookup (aupsertAll ((alookup bk.kv p).getD []) s) k = _
            rw [alookup_aupsertAll]
          rw [hmain, lastStored_cons]
          cases hrest : lastStored rest k with
          | some w => simp
          | none =>
              rw [orFallback_none, orFallback_none, hcur]

/-- A sequence of successful store calls never changes reachability. -/
theorem applyStoreCalls_reachable :
    ∀ (stores : List (List (String × String))) (st : SecretClientState)
      (bk bk' : Backend) (p : String),
      applyStoreCalls st bk p stores = .ok bk' →
      bk'.reachable = bk.reachable := by
  intro stores
  induction stores with
  | nil =>
      intro st bk bk' p h
      replace h : Except.ok bk = Except.ok bk' := h
      injection h with h'
      subst h'
      rfl
  | cons s rest ih =>
      intro st bk bk' p h
      rw [applyStoreCalls_cons] at h
      cases hs : StoreSecrets st bk p s with
      | error e =>
          rw [hs] at h
          exact Except.noConfusion h
      | ok bk1 =>
          rw [hs] at h
          replace h : applyStoreCalls st bk1 p rest = .ok bk' := h
          obtain ⟨_, _, hbk1⟩ := storeSecrets_ok hs
          rw [ih st bk1 bk' p h, hbk1]

/-- After at least one successful store call on the path (or if the path
already existed), the path is present. -/
theorem applyStoreCalls_present :
    ∀ (stores : List (List (String × String))) (st : SecretClientState)
      (bk bk' : Backend) (p : String),
      applyStoreCalls st bk p stores = .ok bk' →
      (stores ≠ [] ∨ (alookup bk.kv p).isSome = true) →
      (alookup bk'.kv p).isSome = true := by
  intro stores
  induction stores with
  | nil =>
      intro st bk bk' p h hp
      replace h : Except.ok bk = Except.ok bk' := h
      injection h with h'
      subst h'
      cases hp with
      | inl hne => exact absurd rfl hne
      | inr hs => exact hs
  | cons s rest ih =>
      intro st bk bk' p h _
      rw [applyStoreCalls_cons] at h
      cases hs : StoreSecrets st bk p s with
      | error e =>
          rw [hs] at h
          exact Except.noConfusion h
      | ok bk1 =>
          rw [hs] at h
          replace h : applyStoreCalls st bk1 p rest = .ok bk' := h
          obtain ⟨_, _, hbk1⟩ := storeSecrets_ok hs
          refine ih st bk1 bk' p h (Or.inr ?_)
          rw [hbk1]
          show (alookup (aupsert bk.kv p
              (aupsertAll ((alookup bk.kv p).getD []) s)) p).isSome = true
          rw [alookup_aupsert, if_pos rfl]
          rfl

/-- `selectKeys` succeeds and pairs each requested key with its looked-up
value when every requested key is present. -/
theorem selectKeys_of_lookup (M : List (String × String))
    (f : String → Option String) (hf : ∀ k, alookup M k = f k) :
    ∀ keys : List String, (∀ k ∈ keys, (f k).isSome = true) →
      selectKeys M keys = some (keys.map (fun k => (k, (f k).getD ""))) := by
  intro keys
  induction keys with
  | nil => intro _; rfl
  | cons k rest ih =>
      intro hall
      have hk := hall k (List.mem_cons_self k rest)
      cases hfk : f k with
      | none =>
          rw [hfk] at hk
          exact absurd hk (by simp)
      | some v =>
          rw [selectKeys_cons, hf k, hfk,
              ih (fun x hx => hall x (List.mem_cons_of_mem _ hx)),
              List.map_cons, hfk]
          rfl

/-- C1: starting from a path with no secrets, after any sequence of
successful `StoreSecrets` calls on that path, `GetSecrets` with requested
keys that were all stored returns exactly the most recently stored value
for each requested key, and `GetSecrets` with no keys returns a map whose
per-key content is exactly the most recently stored value for every key
(keys never stored are absent, keys stored are present with their latest
value — upsert semantics). -/
theorem C1_store_then_get :
    ∀ (st : SecretClientState) (bk bk' : Backend) (p : String)
      (stores : List (List (String × String))),
      st.canRead = true →
      alookup bk.kv p = none →
      applyStoreCalls st bk p stores = .ok bk' →
      (∀ keys : List String, keys ≠ [] →
         (∀ k ∈ keys, (lastStored stores k).isSome = true) →
         GetSecrets st bk' p keys =
           .ok (keys.map (fun k => (k, (lastStored stores k).getD "")))) ∧
      (stores ≠ [] →
         ∃ M, GetSecrets st bk' p [] = .ok M ∧
           ∀ k, alookup M k = lastStored stores k) := by
  intro st bk bk' p stores hread hfresh hok
  have hlook : ∀ k, alookup ((alookup bk'.kv p).getD []) k = lastStored stores k := by
    intro k
    rw [applyStoreCalls_lookup stores st bk bk' p k hok, hfresh]
    cases lastStored stores k <;> rfl
  constructor
  · intro keys hne hall
    obtain ⟨k0, hk0⟩ := List.exists_mem_of_ne_nil keys hne
    have hs0 := hall k0 hk0
    have hstores : stores ≠ [] := by
      intro hEq
      rw [hEq] at hs0
      exact absurd hs0 (by simp [lastStored])
    have hreach : bk'.reachable = true := by
      rw [applyStoreCalls_reachable stores st bk bk' p hok]
      cases hst : stores with
      | nil => exact absurd hst hstores
      | cons s rest =>
          rw [hst, applyStoreCalls_cons] at hok
          cases hs : StoreSecrets st bk p s with
          | error e =>
              rw [hs] at hok
              exact Except.noConfusion hok
          | ok bk1 => exact (storeSecrets_ok hs).1
    have hsome := applyStoreCalls_present stores st bk bk' p hok (Or.inl hstores)
    obtain ⟨M, hM⟩ := Option.isSome_iff_exists.mp hsome
    have hfM : ∀ k, alookup M k = lastStored stores k := by
      intro k
      have := hlook k
      rw [hM] at this
      exact this
    have hkeysne : ¬(keys.isEmpty = true) := by
      cases keys with
      | nil => exact absurd rfl hne
      | cons a l => simp
    rw [GetSecrets, if_neg (by simp [hreach]), if_neg (by simp [hread]), hM]
    show (if keys.isEmpty = true then Except.ok M
          else match selectKeys M keys with
               | some sel => Except.ok sel
               | none => Except.error SecretsError.NotFound) =
      Except.ok (keys.map (fun k => (k, (lastStored stores k).getD "")))
    rw [if_neg hkeysne,
        selectKeys_of_lookup M (fun k => lastStored stores k) hfM keys hall]
  · intro hstores
    have hreach : bk'.reachable = true := by
      rw [applyStoreCalls_reachable stores st bk bk' p hok]
      cases hst : stores with
      | nil => exact absurd hst hstores
      | cons s rest =>
          rw [hst, applyStoreCalls_cons] at hok
          cases hs : StoreSecrets st bk p s with
          | error e =>
              rw [hs] at hok
              exact Except.noConfusion hok
          | ok bk1 => exact (storeSecrets_ok hs).1
    have hsome := applyStoreCalls_present stores st bk bk' p hok (Or.inl hstores)
    obtain ⟨M, hM⟩ := Option.isSome_iff_exists.mp hsome
    refine ⟨M, ?_, ?_⟩
    · rw [GetSecrets, if_neg (by simp [hreach]), if_neg (by simp [hread]), hM]
      rfl
    · intro k
      have := hlook k
      rw [hM] at this
      exact this

/-- The two store calls of the concrete C1 scenario: store `a:1`, then
store `b:2` and overwrite `a:3`. -/
def demoStores : List (List (String × String)) :=
  [[("a", "1")], [("b", "2"), ("a", "3")]]

/-- The backend state after applying `demoStores` on path `app` from an
empty store. -/
def demoBackend : Backend :=
  { baseBackend with kv := [("app", [("a", "3"), ("b", "2")])] }

/-- Witness for C1 at concrete inputs. -/
theorem C1_witness :
    GetSecrets clientAll demoBackend "app" ["a"] =
      .ok (["a"].map (fun k => (k, (lastStored demoStores k).getD ""))) ∧
    ∃ M, GetSecrets clientAll demoBackend "app" [] = .ok M ∧
      ∀ k, alookup M k = lastStored demoStores k := by
  have h := C1_store_then_get clientAll baseBackend demoBackend "app" demoStores
    rfl rfl rfl
  exact ⟨h.1 ["a"] (by decide) (by decide), h.2 (by decide)⟩

end GoModSecrets
